import Mathlib

/-!
Verification of the CloudCache store-and-forward upload buffer
(`src/salt/base/ext/_utils/cloud_cache.py`).

The Redis database is modelled as an association list from queue names to
lists of entries (head of the Lean list = head of the Redis list), together
with an association list of TTLs.  A key exists iff its list is non-empty,
matching Redis semantics for lists.  The HTTP transport is modelled as an
oracle assigning to each network attempt either a response status (with the
message the HTTP library would render for a non-2xx status) or a raised
transport exception; `_upload` classifies these exactly as the source does.
Each drive operation additionally returns the trace of HTTP POSTs it issued
(entries and splay factor per call), so that claims about request bodies,
batch sizes and pacing can be stated.
-/

abbrev Entry := String

/-- Association-list lookup by key (first match). -/
def alookup {α : Type} : List (String × α) → String → Option α
  | [], _ => none
  | p :: rest, q => if p.1 = q then some p.2 else alookup rest q

/-- Remove every binding of a key from an association list. -/
def aerase {α : Type} : List (String × α) → String → List (String × α)
  | [], _ => []
  | p :: rest, q => if p.1 = q then aerase rest q else p :: aerase rest q

/-- The Redis database: list values plus TTLs.  A key exists iff its value is
non-empty, as for Redis lists. -/
structure Store where
  kv : List (String × List Entry)
  ttl : List (String × Nat)
deriving Repr, DecidableEq

namespace Store

def empty : Store := ⟨[], []⟩

/-- `LRANGE q 0 -1`; `[]` when the key is absent. -/
def get (s : Store) (q : String) : List Entry :=
  (alookup s.kv q).getD []

def getTtl (s : Store) (q : String) : Option Nat :=
  alookup s.ttl q

/-- Replace the whole value of a key; an empty value deletes the key (and, as
in Redis, its TTL). -/
def set (s : Store) (q : String) (l : List Entry) : Store :=
  if l.isEmpty then ⟨aerase s.kv q, aerase s.ttl q⟩
  else ⟨(q, l) :: aerase s.kv q, s.ttl⟩

/-- `DEL q`. -/
def delete (s : Store) (q : String) : Store := s.set q []

/-- `EXPIRE q t`: a no-op on a missing key. -/
def expire (s : Store) (q : String) (t : Nat) : Store :=
  if (s.get q).isEmpty then s else ⟨s.kv, (q, t) :: aerase s.ttl q⟩

def keys (s : Store) : List String := s.kv.map (·.1)

/-- `LPUSH q e`. -/
def lpush (s : Store) (q : String) (e : Entry) : Store :=
  s.set q (e :: s.get q)

/-- `LPUSH q e1 ... en` (pushes `es` head-first, so the last element of `es`
ends at the head). -/
def lpushMany (s : Store) (q : String) (es : List Entry) : Store :=
  s.set q (es.reverse ++ s.get q)

/-- `RENAMENX src dst`: move value and TTL, only when `src` exists and `dst`
does not. -/
def renamenx (s : Store) (src dst : String) : Store :=
  if (s.get src).isEmpty ∨ ¬ (s.get dst).isEmpty then s
  else
    let v := s.get src
    let s1 := s.set dst v
    let s2 := match s.getTtl src with
      | some t => s1.expire dst t
      | none => s1
    s2.delete src

/-- `RPOPLPUSH src dst`. -/
def rpoplpush (s : Store) (src dst : String) : Option Entry × Store :=
  match (s.get src).getLast? with
  | none => (none, s)
  | some v =>
      let s1 := s.set src (s.get src).dropLast
      (some v, s1.set dst (v :: s1.get dst))

end Store

namespace CloudCache

def PENDING_QUEUE : String := "pend"
def PENDING_WORK_QUEUE : String := "pend.work"
def FAIL_WORK_QUEUE : String := "fail.work"

/-- `RETRY_QUEUE.format(timestamp, attempt)`; the formatted timestamp is
passed in as a string of digits. -/
def retryQueueName (ts : String) (attempt : Nat) : String :=
  "retr_" ++ ts ++ "_#" ++ toString attempt

/-- `FAIL_QUEUE.format(utcnow)`; the formatted date is passed in as a string
of digits. -/
def failQueueName (date : String) : String :=
  "fail_" ++ date

/-- Character-list prefix test (structurally recursive on the pattern). -/
def chPrefix : List Char → List Char → Bool
  | [], _ => true
  | _ :: _, [] => false
  | a :: as, b :: bs => (a == b) && chPrefix as bs

/-- Glob patterns used by the source are all of the shape `prefix*`. -/
def nameHasPrefix (pre s : String) : Bool :=
  chPrefix pre.data s.data

/-- Byte-wise lexicographic comparison of names, as Python `sorted` uses on
the queue-name strings. -/
def strLeB : List Char → List Char → Bool
  | [], _ => true
  | _ :: _, [] => false
  | a :: as, b :: bs =>
      if a.toNat < b.toNat then true
      else if b.toNat < a.toNat then false
      else strLeB as bs

def insertSorted (x : String) : List String → List String
  | [] => [x]
  | y :: ys => if strLeB x.data y.data then x :: y :: ys else y :: insertSorted x ys

def sortStrings : List String → List String
  | [] => []
  | x :: xs => insertSorted x (sortStrings xs)

/-- `list_queues(pattern=pre + "*")`: matching keys, sorted ascending. -/
def list_queues (s : Store) (pre : String) : List String :=
  sortStrings ((s.keys).filter (fun n => nameHasPrefix pre n))

/-- The loop body of `DEQUEUE_BATCH_LUA`: up to `n` single-entry
`RPOPLPUSH` moves, accumulating the moved entries in pop order. -/
def moveLoop (src dst : String) : Store → Nat → List Entry × Store
  | s, 0 => ([], s)
  | s, n + 1 =>
      match Store.rpoplpush s src dst with
      | (none, s1) => ([], s1)
      | (some v, s1) =>
          let r := moveLoop src dst s1 n
          (v :: r.1, r.2)

/-- `DEQUEUE_BATCH_LUA`: the atomic batched move (see the script in the
source).  Returns the script result together with the updated store. -/
def dequeue_batch (s : Store) (src dst : String) (n : Nat) : List Entry × Store :=
  if ¬ (s.get dst).isEmpty then (s.get dst, s)
  else if ¬ (s.get src).isEmpty then moveLoop src dst s n
  else ([], s)

/-- `enqueue(data)`: `LPUSH pend <serialized record>`; records are opaque. -/
def enqueue (s : Store) (e : Entry) : Store :=
  s.lpush PENDING_QUEUE e

/-- What `requests.post` produced on one network attempt: either a response
with a status code (and the message the library renders for a non-2xx
status), or a raised transport exception with its message. -/
inductive HttpEvent where
  | response (status : Nat) (msg : String)
  | exn (msg : String)

/-- Outcome of `_upload` as the callers see it: `(True, None)`, a returned
`(False, msg)`, or a raised `RequestException` (server error). -/
inductive UploadResult where
  | ok
  | fail (msg : String)
  | raised (msg : String)
deriving Repr, DecidableEq

/-- The configuration options read by the core: whether `endpoint` is set,
`batch_size` (default 100), `max_retry` (default 10), `retry_queue_limit`
(default 10) and `fail_ttl` (default 604800). -/
structure Config where
  endpointConfigured : Bool
  batch_size : Nat
  max_retry : Nat
  retry_queue_limit : Nat
  fail_ttl : Nat
deriving Repr, DecidableEq

/-- The option defaults of the source, with an endpoint configured. -/
def Config.defaults : Config := ⟨true, 100, 10, 10, 604800⟩

/-- One HTTP POST issued by `_upload`: the entries in the body and the splay
factor passed by the caller. -/
structure UploadCall where
  entries : List Entry
  splay : Nat
deriving Repr, DecidableEq

/-- The POST body built by `_upload`: `"[{:s}]".format(", ".join(entries))`. -/
def payload (entries : List Entry) : String :=
  "[" ++ String.intercalate ", " entries ++ "]"

/-- The classification performed by `_upload` after `requests.post`: a raised
exception is returned as `(False, str(ex))`; `res.raise_for_status()` raises
the server-error exception exactly for client/server-error statuses 400-599
and is a no-op for every other status, so any 1xx/2xx/3xx response (e.g. a
304) falls through to `return True, None`.  (The source's comment claims
that all non-2xx statuses fail, but its `raise_for_status()` call does
not.) -/
def classifyEvent : HttpEvent → UploadResult
  | .exn m => .fail m
  | .response st m => if 400 ≤ st ∧ st ≤ 599 then .raised m else .ok

/-- `_upload(entries, splay_factor)`: short-circuits when no endpoint is
configured (no network attempt, oracle index unchanged); otherwise performs
one network attempt and classifies it.  Also returns the POST trace. -/
def upload (cfg : Config) (oracle : Nat → HttpEvent) (entries : List Entry)
    (splay k : Nat) : UploadResult × Nat × List UploadCall :=
  if cfg.endpointConfigured then
    (classifyEvent (oracle k), k + 1, [⟨entries, splay⟩])
  else
    (.fail "No cloud endpoint configured", k, [])

/-- The record returned by `_upload_batch`: `{"count": n}` plus an optional
`"error"` field. -/
structure BatchRes where
  count : Nat
  error : Option String
deriving Repr, DecidableEq

/-- Result of a batch helper: a normal return or a propagating
`RequestException` (server error), the store, the next oracle index and the
POST trace. -/
structure BatchOut where
  res : Except String BatchRes
  store : Store
  k : Nat
  calls : List UploadCall

/-- `_upload_batch(source_queue, work_queue)`. -/
def upload_batch (cfg : Config) (oracle : Nat → HttpEvent) (s : Store)
    (src wq : String) (k : Nat) : BatchOut :=
  let d := dequeue_batch s src wq cfg.batch_size
  if d.1.isEmpty then ⟨.ok ⟨0, none⟩, d.2, k, []⟩
  else
    match upload cfg oracle d.1 1 k with
    | (.ok, k1, tr) => ⟨.ok ⟨d.1.length, none⟩, (d.2).delete wq, k1, tr⟩
    | (.fail m, k1, tr) => ⟨.ok ⟨0, some m⟩, d.2, k1, tr⟩
    | (.raised m, k1, tr) => ⟨.error m, d.2, k1, tr⟩

/-- The `while` loop of `_upload_batch_continuing`, with fuel for
termination; the loop condition is checked before the fuel so that a run
that stops by itself is independent of the fuel. -/
def contLoop (cfg : Config) (oracle : Nat → HttpEvent) (src wq : String) :
    Nat → BatchRes → BatchRes → Store → Nat → List UploadCall → BatchOut
  | fuel, last, acc, s, k, tr =>
    if last.error = none ∧ last.count = cfg.batch_size then
      match fuel with
      | 0 => ⟨.ok acc, s, k, tr⟩
      | fuel' + 1 =>
          match upload_batch cfg oracle s src wq k with
          | ⟨.ok res, s1, k1, tr1⟩ =>
              contLoop cfg oracle src wq fuel' res
                ⟨acc.count + res.count,
                 match res.error with | some e => some e | none => acc.error⟩
                s1 k1 (tr ++ tr1)
          | ⟨.error m, s1, k1, tr1⟩ => ⟨.error m, s1, k1, tr ++ tr1⟩
    else ⟨.ok acc, s, k, tr⟩

/-- `_upload_batch_continuing(source_queue, work_queue)`. -/
def upload_batch_continuing (cfg : Config) (oracle : Nat → HttpEvent)
    (s : Store) (src wq : String) (k fuel : Nat) : BatchOut :=
  match upload_batch cfg oracle s src wq k with
  | ⟨.ok res, s1, k1, tr1⟩ => contLoop cfg oracle src wq fuel res res s1 k1 tr1
  | out => out

/-- Summary returned by `upload_pending` / `upload_failing` (an absent
`errors` key is the empty list), together with the store, oracle index and
POST trace. -/
structure DriveOut where
  total : Nat
  errors : List String
  store : Store
  k : Nat
  calls : List UploadCall

/-- `upload_pending()`: drain `pend` through `pend.work`; on a server error
the work queue is renamed (rename-if-absent) to a fresh `retr_{now}_#0`. -/
def upload_pending (cfg : Config) (oracle : Nat → HttpEvent) (now : String)
    (s : Store) (k fuel : Nat) : DriveOut :=
  match upload_batch_continuing cfg oracle s PENDING_QUEUE PENDING_WORK_QUEUE k fuel with
  | ⟨.ok res, s1, k1, tr⟩ =>
      ⟨res.count, (match res.error with | some e => [e] | none => []), s1, k1, tr⟩
  | ⟨.error m, s1, k1, tr⟩ =>
      ⟨0, [m], s1.renamenx PENDING_WORK_QUEUE (retryQueueName now 0), k1, tr⟩

/-- Numeric value of a digit string, as Python `int` reads a `\d+` capture. -/
def digitsToNat (ds : List Char) : Nat :=
  ds.foldl (fun n c => 10 * n + (c.toNat - 48)) 0

/-- Matching of `RETRY_QUEUE_REGEX = ^(?P<type>.+)_(?P<timestamp>\d+)_#(?P<attempt>\d+)$`
against a name, on the reversed character list: the name matches iff it
splits as `type ++ "_" ++ timestamp ++ "_#" ++ attempt` with `type`
non-empty and `timestamp`, `attempt` non-empty digit runs; the split is
unique because the digit runs are maximal against the non-digit separators.
Returns the numeric value of the `attempt` group. -/
def parseRetryCore (rev : List Char) : Option Nat :=
  let d2 := rev.takeWhile Char.isDigit
  match rev.dropWhile Char.isDigit with
  | '#' :: '_' :: rest2 =>
      if d2.isEmpty then none
      else
        let d1 := rest2.takeWhile Char.isDigit
        match rest2.dropWhile Char.isDigit with
        | '_' :: a => if d1.isEmpty ∨ a.isEmpty then none else some (digitsToNat d2.reverse)
        | _ => none
  | _ => none

/-- `RETRY_QUEUE_REGEX.match(queue)`, returning `int(match.group("attempt"))`. -/
def parseRetryAttempt (name : String) : Option Nat :=
  parseRetryCore name.data.reverse

/-- Modelled from the spec: the spec's stated retry-name pattern
`^retr_(\d+)_#(\d+)$` (the code's own regex allows an arbitrary non-empty
`type` group in place of the literal `retr`); used to compare the spec's
acceptance condition with the code's. -/
def specRetryNameMatch (name : String) : Bool :=
  let rev := name.data.reverse
  let d2 := rev.takeWhile Char.isDigit
  match rev.dropWhile Char.isDigit with
  | '#' :: '_' :: rest2 =>
      (!d2.isEmpty) &&
      (!(rest2.takeWhile Char.isDigit).isEmpty) &&
      (String.mk (rest2.dropWhile Char.isDigit).reverse == "retr_")
  | _ => false

/-- `re.sub("_#\d+$", "_#{:}".format(attempt), queue)`: replace a trailing
`_#digits` suffix by the new attempt; an unmatched name is left unchanged. -/
def setAttemptSuffix (name : String) (attempt : Nat) : String :=
  let rev := name.data.reverse
  let d2 := rev.takeWhile Char.isDigit
  match rev.dropWhile Char.isDigit with
  | '#' :: '_' :: rest2 =>
      if d2.isEmpty then name
      else String.mk rest2.reverse ++ "_#" ++ toString attempt
  | _ => name

/-- Summary returned by `upload_retrying`, together with the store, oracle
index and POST trace. -/
structure RetryOut where
  total : Nat
  errors : List String
  is_overrun : Bool
  store : Store
  k : Nat
  calls : List UploadCall

/-- The `for queue in queues` loop of `upload_retrying`.  Arguments after
the queue list: `remaining_count`, store, oracle index, accumulated
`total`, `errors` and POST trace. -/
def retryLoop (cfg : Config) (oracle : Nat → HttpEvent) (today : String) :
    List String → Nat → Store → Nat → Nat → List String → List UploadCall →
      Nat × List String × Store × Nat × List UploadCall
  | [], _, s, k, total, errs, tr => (total, errs, s, k, tr)
  | q :: rest, remaining, s, k, total, errs, tr =>
      match parseRetryAttempt q with
      | none => retryLoop cfg oracle today rest remaining s k total errs tr
      | some a =>
          let attempt := a + 1
          let entries := s.get q
          match upload cfg oracle entries remaining k with
          | (.ok, k1, tr1) =>
              retryLoop cfg oracle today rest (remaining - 1) (s.delete q) k1
                (total + entries.length) errs (tr ++ tr1)
          | (.fail m, k1, tr1) =>
              (total, errs ++ [m], s, k1, tr ++ tr1)
          | (.raised m, k1, tr1) =>
              let s' :=
                if cfg.max_retry ≤ attempt then
                  ((s.lpushMany (failQueueName today) entries).expire
                      (failQueueName today) cfg.fail_ttl).delete q
                else
                  s.renamenx q (setAttemptSuffix q attempt)
              retryLoop cfg oracle today rest remaining s' k1 total (errs ++ [m]) (tr ++ tr1)

/-- `upload_retrying()`. -/
def upload_retrying (cfg : Config) (oracle : Nat → HttpEvent) (today : String)
    (s : Store) (k : Nat) : RetryOut :=
  let queues := list_queues s "retr_"
  let r := retryLoop cfg oracle today queues queues.length s k 0 [] []
  ⟨r.1, r.2.1, decide (cfg.retry_queue_limit ≤ queues.length), r.2.2.1, r.2.2.2.1, r.2.2.2.2⟩

/-- The `for queue in queues` loop of `upload_failing`: stop at the first
returned error; a propagating server error is appended and also stops the
pass (losing the current call's count, as the `try` wraps the loop). -/
def failLoop (cfg : Config) (oracle : Nat → HttpEvent) (fuel : Nat) :
    List String → Store → Nat → Nat → List String → List UploadCall → DriveOut
  | [], s, k, total, errs, tr => ⟨total, errs, s, k, tr⟩
  | q :: rest, s, k, total, errs, tr =>
      match upload_batch_continuing cfg oracle s q FAIL_WORK_QUEUE k fuel with
      | ⟨.ok res, s1, k1, tr1⟩ =>
          match res.error with
          | some e => ⟨total + res.count, errs ++ [e], s1, k1, tr ++ tr1⟩
          | none => failLoop cfg oracle fuel rest s1 k1 (total + res.count) errs (tr ++ tr1)
      | ⟨.error m, s1, k1, tr1⟩ => ⟨total, errs ++ [m], s1, k1, tr ++ tr1⟩

/-- `upload_failing()`. -/
def upload_failing (cfg : Config) (oracle : Nat → HttpEvent) (s : Store)
    (k fuel : Nat) : DriveOut :=
  failLoop cfg oracle fuel (list_queues s "fail_") s k 0 [] []

end CloudCache

section StoreLemmas

theorem alookup_aerase_self {α : Type} (kv : List (String × α)) (q : String) :
    alookup (aerase kv q) q = none := by
  induction kv with
  | nil => rfl
  | cons p rest ih =>
      by_cases h : p.1 = q
      · simp [aerase, h, ih]
      · simp [aerase, h, alookup, ih]

theorem alookup_aerase_ne {α : Type} (kv : List (String × α)) {q q' : String}
    (h : q ≠ q') : alookup (aerase kv q) q' = alookup kv q' := by
  induction kv with
  | nil => rfl
  | cons p rest ih =>
      by_cases hp : p.1 = q
      · have : p.1 ≠ q' := by rw [hp]; exact h
        simp [aerase, hp, alookup, this, ih, h]
      · simp [aerase, hp, alookup, ih]

theorem Store.get_set_self (s : Store) (q : String) (l : List Entry) :
    (s.set q l).get q = l := by
  by_cases h : l.isEmpty
  · have hl : l = [] := List.isEmpty_iff.mp h
    simp [Store.set, h, Store.get, alookup_aerase_self, hl]
  · simp [Store.set, h, Store.get, alookup]

theorem Store.get_set_ne (s : Store) {q q' : String} (l : List Entry)
    (h : q ≠ q') : (s.set q l).get q' = s.get q' := by
  by_cases he : l.isEmpty
  · simp [Store.set, he, Store.get, alookup_aerase_ne _ h]
  · simp [Store.set, he, Store.get, alookup, h, alookup_aerase_ne _ h]

theorem Store.get_delete_self (s : Store) (q : String) :
    (s.delete q).get q = [] := Store.get_set_self s q []

theorem Store.get_delete_ne (s : Store) {q q' : String} (h : q ≠ q') :
    (s.delete q).get q' = s.get q' := Store.get_set_ne s [] h

theorem Store.get_expire (s : Store) (q : String) (t : Nat) (q' : String) :
    (s.expire q t).get q' = s.get q' := by
  unfold Store.expire
  split <;> rfl

theorem Store.get_lpushMany_self (s : Store) (q : String) (es : List Entry) :
    (s.lpushMany q es).get q = es.reverse ++ s.get q := by
  simp [Store.lpushMany, Store.get_set_self]

theorem Store.get_lpushMany_ne (s : Store) {q q' : String} (es : List Entry)
    (h : q ≠ q') : (s.lpushMany q es).get q' = s.get q' := by
  simp [Store.lpushMany, Store.get_set_ne _ _ h]

theorem Store.get_renamenx_src (s : Store)
    {src dst : String} (hsrc : s.get src ≠ []) (hdst : s.get dst = []) :
    (s.renamenx src dst).get src = [] := by
  unfold Store.renamenx
  rw [if_neg (by simp [hsrc, hdst])]
  cases htl : s.getTtl src <;>
    simp [htl, Store.get_delete_self]

theorem Store.get_renamenx_dst (s : Store) {src dst : String} (h : src ≠ dst)
    (hsrc : s.get src ≠ []) (hdst : s.get dst = []) :
    (s.renamenx src dst).get dst = s.get src := by
  unfold Store.renamenx
  rw [if_neg (by simp [hsrc, hdst])]
  cases htl : s.getTtl src <;>
    simp [htl, Store.get_delete_ne _ h, Store.get_expire, Store.get_set_self]

theorem Store.get_renamenx_other (s : Store) {src dst q : String}
    (h1 : q ≠ src) (h2 : q ≠ dst) :
    (s.renamenx src dst).get q = s.get q := by
  unfold Store.renamenx
  split
  · rfl
  · cases htl : s.getTtl src <;>
      simp [htl, Store.get_delete_ne _ (Ne.symm h1), Store.get_expire,
        Store.get_set_ne _ _ (Ne.symm h2)]

theorem Store.get_renamenx_noop (s : Store) {src dst : String}
    (h : s.get src = []) (q : String) : (s.renamenx src dst).get q = s.get q := by
  have : (s.get src).isEmpty = true := by simp [h]
  simp [Store.renamenx, this]

end StoreLemmas

section DequeueLemmas

open CloudCache

/-- Full characterisation of the Lua move loop: with `m = min n len`, it
moves the last `m` entries of the source to the head of the destination,
returns them in pop order (tail first), and touches no other key. -/
theorem moveLoop_spec (src dst : String) (hne : src ≠ dst) (n : Nat) :
    ∀ s : Store,
      (moveLoop src dst s n).1 =
        ((s.get src).drop ((s.get src).length - min n (s.get src).length)).reverse ∧
      (moveLoop src dst s n).2.get src =
        (s.get src).take ((s.get src).length - min n (s.get src).length) ∧
      (moveLoop src dst s n).2.get dst =
        (s.get src).drop ((s.get src).length - min n (s.get src).length) ++ s.get dst ∧
      ∀ q, q ≠ src → q ≠ dst → (moveLoop src dst s n).2.get q = s.get q := by
  induction n with
  | zero =>
      intro s
      refine ⟨?_, ?_, ?_, fun q _ _ => rfl⟩ <;> simp [moveLoop]
  | succ n ih =>
      intro s
      rcases h : (s.get src).getLast? with _ | v
      · have hl : s.get src = [] := List.getLast?_eq_none_iff.mp h
        have hm : moveLoop src dst s (n + 1) = ([], s) := by
          simp [moveLoop, Store.rpoplpush, h]
        rw [hm, hl]
        exact ⟨rfl, rfl, rfl, fun q _ _ => rfl⟩
      · obtain ⟨l', hl⟩ := List.getLast?_eq_some_iff.mp h
        set s2 := (s.set src (s.get src).dropLast).set dst
            (v :: (s.set src (s.get src).dropLast).get dst) with hs2
        have hm : moveLoop src dst s (n + 1) =
            (v :: (moveLoop src dst s2 n).1, (moveLoop src dst s2 n).2) := by
          simp only [moveLoop, Store.rpoplpush, h]
        have hdl : (s.get src).dropLast = l' := by
          rw [hl]; exact List.dropLast_concat
        have hs2src : s2.get src = l' := by
          rw [hs2, Store.get_set_ne _ _ (Ne.symm hne), Store.get_set_self, hdl]
        have hs1dst : (s.set src (s.get src).dropLast).get dst = s.get dst :=
          Store.get_set_ne _ _ hne
        have hs2dst : s2.get dst = v :: s.get dst := by
          rw [hs2, Store.get_set_self, hs1dst]
        have hs2q : ∀ q, q ≠ src → q ≠ dst → s2.get q = s.get q := by
          intro q h1 h2
          rw [hs2, Store.get_set_ne _ _ (Ne.symm h2), Store.get_set_ne _ _ (Ne.symm h1)]
        obtain ⟨ih1, ih2, ih3, ih4⟩ := ih s2
        rw [hs2src] at ih1 ih2
        rw [hs2src, hs2dst] at ih3
        have harith : (l' ++ [v]).length - min (n + 1) (l' ++ [v]).length =
            l'.length - min n l'.length := by
          simp [Nat.succ_min_succ]
        have hle : l'.length - min n l'.length ≤ l'.length := Nat.sub_le _ _
        rw [hm, hl]
        refine ⟨?_, ?_, ?_, ?_⟩
        · rw [harith, List.drop_append_of_le_length hle, List.reverse_concat, ih1]
        · rw [harith, List.take_append_of_le_length hle, ih2]
        · rw [harith, List.drop_append_of_le_length hle, ih3,
            List.append_assoc, List.singleton_append]
        · intro q h1 h2
          rw [ih4 q h1 h2, hs2q q h1 h2]

/-- The moving case of `dequeue_batch`: destination empty, source non-empty. -/
theorem dequeue_batch_move (s : Store) (src dst : String) (n : Nat)
    (hne : src ≠ dst) (hdst : s.get dst = []) (hsrc : s.get src ≠ []) :
    (dequeue_batch s src dst n).1 =
      ((s.get src).drop ((s.get src).length - min n (s.get src).length)).reverse ∧
    (dequeue_batch s src dst n).2.get src =
      (s.get src).take ((s.get src).length - min n (s.get src).length) ∧
    (dequeue_batch s src dst n).2.get dst =
      (s.get src).drop ((s.get src).length - min n (s.get src).length) ∧
    ∀ q, q ≠ src → q ≠ dst → (dequeue_batch s src dst n).2.get q = s.get q := by
  have hd : (s.get dst).isEmpty = true := by simp [hdst]
  have hs : (s.get src).isEmpty = false := by
    simp [List.isEmpty_iff]; exact hsrc
  have heq : dequeue_batch s src dst n = moveLoop src dst s n := by
    simp [dequeue_batch, hd, hs]
  obtain ⟨m1, m2, m3, m4⟩ := moveLoop_spec src dst hne n s
  rw [heq]
  exact ⟨m1, m2, by rw [m3, hdst, List.append_nil], m4⟩

end DequeueLemmas

/-- C3: `dequeue_batch(source, destination, n)` satisfies, for every store
state (with distinct source and destination): (1) if the destination is
non-empty it returns the destination's full contents and changes nothing;
(2) else if the source is non-empty it moves `min(n, len(source))` entries
from the source's tail to the destination's head, returns exactly the moved
entries (in pop order), and every entry is afterwards in source or
destination, none lost and none duplicated; (3) else it returns the empty
list and changes nothing. -/
theorem C3_dequeue_batch_contract (s : Store) (src dst : String) (n : Nat)
    (hne : src ≠ dst) :
    (s.get dst ≠ [] →
      (CloudCache.dequeue_batch s src dst n).1 = s.get dst ∧
      (CloudCache.dequeue_batch s src dst n).2 = s) ∧
    (s.get dst = [] → s.get src ≠ [] →
      (CloudCache.dequeue_batch s src dst n).1 =
        ((s.get src).drop ((s.get src).length - min n (s.get src).length)).reverse ∧
      (CloudCache.dequeue_batch s src dst n).1.length = min n (s.get src).length ∧
      (CloudCache.dequeue_batch s src dst n).2.get src =
        (s.get src).take ((s.get src).length - min n (s.get src).length) ∧
      (CloudCache.dequeue_batch s src dst n).2.get dst =
        (s.get src).drop ((s.get src).length - min n (s.get src).length) ∧
      (CloudCache.dequeue_batch s src dst n).2.get src ++
        (CloudCache.dequeue_batch s src dst n).2.get dst = s.get src ∧
      ∀ q, q ≠ src → q ≠ dst →
        (CloudCache.dequeue_batch s src dst n).2.get q = s.get q) ∧
    (s.get dst = [] → s.get src = [] →
      (CloudCache.dequeue_batch s src dst n).1 = [] ∧
      (CloudCache.dequeue_batch s src dst n).2 = s) := by
  refine ⟨?_, ?_, ?_⟩
  · intro hdst
    have hd : (s.get dst).isEmpty = false := by
      simp [List.isEmpty_iff]; exact hdst
    constructor <;> simp [CloudCache.dequeue_batch, hd]
  · intro hdst hsrc
    obtain ⟨m1, m2, m3, m4⟩ := dequeue_batch_move s src dst n hne hdst hsrc
    have hmle : min n (s.get src).length ≤ (s.get src).length := min_le_right _ _
    refine ⟨m1, ?_, m2, m3, ?_, m4⟩
    · rw [m1]
      simp [Nat.sub_sub_self hmle]
    · rw [m2, m3, List.take_append_drop]
  · intro hdst hsrc
    have hd : (s.get dst).isEmpty = true := by simp [hdst]
    have hs : (s.get src).isEmpty = true := by simp [hsrc]
    constructor <;> simp [CloudCache.dequeue_batch, hd, hs]

/-- Witness for C3 at a concrete store: moving 2 of 3 entries. -/
theorem C3_dequeue_batch_contract_witness :
    (CloudCache.dequeue_batch (Store.empty.set "pend" ["A", "B", "C"])
        "pend" "pend.work" 2).1 = ["C", "B"] ∧
    (CloudCache.dequeue_batch (Store.empty.set "pend" ["A", "B", "C"])
        "pend" "pend.work" 2).2.get "pend" = ["A"] ∧
    (CloudCache.dequeue_batch (Store.empty.set "pend" ["A", "B", "C"])
        "pend" "pend.work" 2).2.get "pend.work" = ["B", "C"] := by
  have h := (C3_dequeue_batch_contract (Store.empty.set "pend" ["A", "B", "C"])
      "pend" "pend.work" 2 (by decide)).2.1 (by decide) (by decide)
  refine ⟨?_, ?_, ?_⟩
  · rw [h.1]; decide
  · rw [h.2.2.1]; decide
  · rw [h.2.2.2.1]; decide

/-- C10 (implicit): on the crash-recovery path the work queue's head-to-tail
contents are the reverse of the batch returned when the entries were first
moved, so the resumed upload's POST body lists the batch's entries in the
reverse order of the original attempt's body. -/
theorem C10_resume_order_reversed (s : Store) (src dst : String) (n n2 : Nat)
    (hne : src ≠ dst) (hdst : s.get dst = []) (hsrc : s.get src ≠ [])
    (hn : 1 ≤ n) :
    (CloudCache.dequeue_batch (CloudCache.dequeue_batch s src dst n).2 src dst n2).1 =
      ((CloudCache.dequeue_batch s src dst n).1).reverse ∧
    CloudCache.payload
        (CloudCache.dequeue_batch (CloudCache.dequeue_batch s src dst n).2 src dst n2).1 =
      CloudCache.payload ((CloudCache.dequeue_batch s src dst n).1).reverse := by
  obtain ⟨m1, _, m3, _⟩ := dequeue_batch_move s src dst n hne hdst hsrc
  set s1 := (CloudCache.dequeue_batch s src dst n).2 with hs1
  have hmin : 1 ≤ min n (s.get src).length :=
    le_min hn (List.length_pos.mpr hsrc)
  have hlen : (s1.get dst).length = min n (s.get src).length := by
    rw [m3]
    simp [Nat.sub_sub_self (min_le_right n (s.get src).length)]
  have hnemp : s1.get dst ≠ [] := by
    apply List.length_pos.mp
    rw [hlen]
    exact hmin
  have hd : (s1.get dst).isEmpty = false := by
    simp [List.isEmpty_iff]; exact hnemp
  have heq : CloudCache.dequeue_batch s1 src dst n2 = (s1.get dst, s1) := by
    simp [CloudCache.dequeue_batch, hd]
  have hrev : s1.get dst = ((CloudCache.dequeue_batch s src dst n).1).reverse := by
    rw [m1, m3, List.reverse_reverse]
  refine ⟨?_, ?_⟩
  · rw [heq, hrev]
  · rw [heq, hrev]

/-- Witness for C10: first move returns `["A", "B"]`; the resumed dequeue
returns `["B", "A"]`. -/
theorem C10_resume_order_reversed_witness :
    (CloudCache.dequeue_batch
        (CloudCache.dequeue_batch (Store.empty.set "pend" ["C", "B", "A"])
          "pend" "pend.work" 2).2 "pend" "pend.work" 2).1 = ["B", "A"] ∧
    (CloudCache.dequeue_batch (Store.empty.set "pend" ["C", "B", "A"])
        "pend" "pend.work" 2).1 = ["A", "B"] := by
  have h := C10_resume_order_reversed (Store.empty.set "pend" ["C", "B", "A"])
      "pend" "pend.work" 2 2 (by decide) (by decide) (by decide) (by decide)
  refine ⟨?_, by decide⟩
  rw [h.1]
  decide

open CloudCache in
/-- C1 counterexample: enqueue one entry `A` and drive `upload_pending`
while the transport raises.  The inner `_upload_batch` returns
`{count: 0, error: msg}` (not `count = len(batch) = 1`), and the drive
result has `total = 0`, not `total = 1` as the claim states. -/
theorem C1_counterexample :
    (upload_pending Config.defaults (fun _ => .exn "down") "20240101"
        (enqueue Store.empty "A") 0 5).total ≠ 1 ∧
    (upload_batch Config.defaults (fun _ => .exn "down")
        (enqueue Store.empty "A") "pend" "pend.work" 0).res =
      Except.ok ⟨0, some "down"⟩ := by
  exact ⟨by decide, rfl⟩

open CloudCache in
/-- C1 (amended): for every call of `_upload_batch` where `dequeue_batch`
yields a non-empty batch and the upload returns a transport failure, the
returned record is `{count: 0, error: msg}` (the count field reflects only
successfully uploaded entries) and the store is exactly the post-dequeue
store, so the work queue is left intact; in particular, after enqueueing one
entry `A` and driving `upload_pending` while the transport raises, the
result is `{total: 0, errors: [msg]}` and `pend.work` contains exactly
`[A]` with no retry queue created. -/
theorem C1_transport_failure_leaves_work (cfg : Config)
    (oracle : Nat → HttpEvent) (s : Store) (src wq : String) (k : Nat)
    (m : String)
    (hep : cfg.endpointConfigured = true)
    (hor : oracle k = .exn m)
    (hne : (dequeue_batch s src wq cfg.batch_size).1 ≠ []) :
    (upload_batch cfg oracle s src wq k).res = Except.ok ⟨0, some m⟩ ∧
    (upload_batch cfg oracle s src wq k).store =
      (dequeue_batch s src wq cfg.batch_size).2 ∧
    (upload_batch cfg oracle s src wq k).calls =
      [⟨(dequeue_batch s src wq cfg.batch_size).1, 1⟩] ∧
    ∀ (A now : String) (k' mr ql ft : Nat),
      (upload_pending ⟨true, 100, mr, ql, ft⟩ (fun _ => .exn m) now
          (enqueue Store.empty A) k' 1).total = 0 ∧
      (upload_pending ⟨true, 100, mr, ql, ft⟩ (fun _ => .exn m) now
          (enqueue Store.empty A) k' 1).errors = [m] ∧
      (upload_pending ⟨true, 100, mr, ql, ft⟩ (fun _ => .exn m) now
          (enqueue Store.empty A) k' 1).store.get "pend.work" = [A] ∧
      ∀ q, nameHasPrefix "retr_" q = true →
        (upload_pending ⟨true, 100, mr, ql, ft⟩ (fun _ => .exn m) now
            (enqueue Store.empty A) k' 1).store.get q = [] := by
  have hb : (dequeue_batch s src wq cfg.batch_size).1.isEmpty = false := by
    simp [List.isEmpty_iff]; exact hne
  have hup : upload cfg oracle (dequeue_batch s src wq cfg.batch_size).1 1 k =
      (.fail m, k + 1, [⟨(dequeue_batch s src wq cfg.batch_size).1, 1⟩]) := by
    simp [upload, hep, hor, classifyEvent]
  refine ⟨?_, ?_, ?_, ?_⟩
  · simp [upload_batch, hb, hup]
  · simp [upload_batch, hb, hup]
  · simp [upload_batch, hb, hup]
  · intro A now k' mr ql ft
    have hst : (upload_pending ⟨true, 100, mr, ql, ft⟩ (fun _ => .exn m) now
        (enqueue Store.empty A) k' 1).store = ⟨[("pend.work", [A])], []⟩ := rfl
    refine ⟨rfl, rfl, ?_, ?_⟩
    · rw [hst]; rfl
    · intro q hq
      rw [hst]
      by_cases hqe : "pend.work" = q
      · rw [← hqe] at hq
        exact absurd hq (by decide)
      · simp [Store.get, alookup, hqe]

open CloudCache in
/-- Witness for C1 at a concrete input: one entry, transport raising. -/
theorem C1_transport_failure_leaves_work_witness :
    (upload_batch Config.defaults (fun _ => .exn "down")
        (Store.empty.set "pend" ["A"]) "pend" "pend.work" 0).res =
      Except.ok ⟨0, some "down"⟩ ∧
    (upload_batch Config.defaults (fun _ => .exn "down")
        (Store.empty.set "pend" ["A"]) "pend" "pend.work" 0).store.get "pend.work" =
      ["A"] := by
  have h := C1_transport_failure_leaves_work Config.defaults (fun _ => .exn "down")
      (Store.empty.set "pend" ["A"]) "pend" "pend.work" 0 "down" rfl rfl (by decide)
  refine ⟨h.1, ?_⟩
  rw [h.2.1]
  decide

open CloudCache in
/-- C2 counterexample: enqueue `A`, `B`, `C` (head-appends) and drive
`upload_pending` against a 200 server.  `RPOPLPUSH` pops the source's tail,
which holds the first-enqueued entry, so the single POST body is the
enqueue-order array `[A, B, C]`, not `[C, B, A]` as the claim states. -/
theorem C2_counterexample :
    (upload_pending Config.defaults (fun _ => .response 200 "ok") "20240101"
        (enqueue (enqueue (enqueue Store.empty "A") "B") "C") 0 1).calls ≠
      [⟨["C", "B", "A"], 1⟩] ∧
    payload ((upload_pending Config.defaults (fun _ => .response 200 "ok") "20240101"
        (enqueue (enqueue (enqueue Store.empty "A") "B") "C") 0 1).calls.headD
          ⟨[], 0⟩).entries = "[A, B, C]" ∧
    "[A, B, C]" ≠ "[C, B, A]" := by
  refine ⟨by decide, ?_, by decide⟩
  rfl

set_option maxHeartbeats 2000000 in
open CloudCache in
/-- C2 (amended): after enqueueing three records `A, B, C` in that order
(each head-appended to `pend`) with `batch_size = 100`, driving
`upload_pending` against a server that returns 200 produces exactly one
HTTP POST whose body equals the JSON array `[A, B, C]` (the enqueue order:
the tail-to-head move from a head-append pending queue restores FIFO
order), leaves `pend` and `pend.work` empty (deleted), and returns
`{total: 3}` with no errors. -/
theorem C2_happy_path (A B C m now : String) (k mr ql ft : Nat) :
    (upload_pending ⟨true, 100, mr, ql, ft⟩ (fun _ => .response 200 m) now
        (enqueue (enqueue (enqueue Store.empty A) B) C) k 1).calls =
      [⟨[A, B, C], 1⟩] ∧
    payload ((upload_pending ⟨true, 100, mr, ql, ft⟩ (fun _ => .response 200 m) now
        (enqueue (enqueue (enqueue Store.empty A) B) C) k 1).calls.headD
          ⟨[], 0⟩).entries = payload [A, B, C] ∧
    (upload_pending ⟨true, 100, mr, ql, ft⟩ (fun _ => .response 200 m) now
        (enqueue (enqueue (enqueue Store.empty A) B) C) k 1).total = 3 ∧
    (upload_pending ⟨true, 100, mr, ql, ft⟩ (fun _ => .response 200 m) now
        (enqueue (enqueue (enqueue Store.empty A) B) C) k 1).errors = [] ∧
    (upload_pending ⟨true, 100, mr, ql, ft⟩ (fun _ => .response 200 m) now
        (enqueue (enqueue (enqueue Store.empty A) B) C) k 1).store.get "pend" = [] ∧
    (upload_pending ⟨true, 100, mr, ql, ft⟩ (fun _ => .response 200 m) now
        (enqueue (enqueue (enqueue Store.empty A) B) C) k 1).store.get "pend.work" = [] := by
  exact ⟨rfl, rfl, rfl, rfl, rfl, rfl⟩

open CloudCache in
/-- C5 counterexample: the claim fails on two points.  First, a 304
response is non-2xx yet `_upload` returns `(True, None)` for it instead of
raising: `res.raise_for_status()` raises only for statuses 400-599 (the
source's comment "All non 2xx status codes will fail" overstates what the
next line does).  Second, with no endpoint configured the returned message
is `"No cloud endpoint configured"`, not `"no endpoint configured"`. -/
theorem C5_counterexample :
    upload Config.defaults (fun _ => .response 304 "not modified") ["e"] 1 0 =
      (UploadResult.ok, 1, [⟨["e"], 1⟩]) ∧
    (upload ⟨false, 100, 10, 10, 604800⟩ (fun _ => .exn "x") ["e"] 1 0).1 ≠
      UploadResult.fail "no endpoint configured" ∧
    (upload ⟨false, 100, 10, 10, 604800⟩ (fun _ => .exn "x") ["e"] 1 0).1 =
      UploadResult.fail "No cloud endpoint configured" := by
  exact ⟨rfl, by decide, rfl⟩

open CloudCache in
/-- C5 (amended): `_upload` classifies every outcome into exactly one of: a
response with a client/server-error status 400-599 raises the typed
server-error signal (does not return); any other response - the 2xx
successes, but also 1xx/3xx such as 304, since `raise_for_status()` raises
only for 4xx/5xx - returns `(true, none)`; a transport exception during the
request returns `(false, message)` without raising; and when no endpoint is
configured it returns `(false, "No cloud endpoint configured")` without
making any network attempt (no POST recorded, oracle index unchanged). -/
theorem C5_upload_classification (cfg : Config) (oracle : Nat → HttpEvent)
    (es : List Entry) (sp k : Nat) :
    (cfg.endpointConfigured = true →
      (∀ st m, oracle k = .response st m →
        ((400 ≤ st ∧ st ≤ 599) →
          upload cfg oracle es sp k = (.raised m, k + 1, [⟨es, sp⟩])) ∧
        (¬ (400 ≤ st ∧ st ≤ 599) →
          upload cfg oracle es sp k = (.ok, k + 1, [⟨es, sp⟩]))) ∧
      (∀ m, oracle k = .exn m →
        upload cfg oracle es sp k = (.fail m, k + 1, [⟨es, sp⟩]))) ∧
    (cfg.endpointConfigured = false →
      upload cfg oracle es sp k =
        (.fail "No cloud endpoint configured", k, [])) := by
  constructor
  · intro hep
    constructor
    · intro st m hor
      constructor
      · intro h2
        simp [upload, hep, hor, classifyEvent, h2]
      · intro h2
        simp [upload, hep, hor, classifyEvent, h2]
    · intro m hor
      simp [upload, hep, hor, classifyEvent]
  · intro hep
    simp [upload, hep]

open CloudCache in
/-- Witness for C5: a missing endpoint, a 503 server error and a 200
success, concretely. -/
theorem C5_upload_classification_witness :
    upload ⟨false, 100, 10, 10, 604800⟩ (fun _ => .response 200 "x") ["e"] 1 0 =
      (.fail "No cloud endpoint configured", 0, []) ∧
    upload Config.defaults (fun _ => .response 503 "boom") ["e"] 1 0 =
      (.raised "boom", 1, [⟨["e"], 1⟩]) ∧
    upload Config.defaults (fun _ => .response 200 "ok") ["e"] 1 0 =
      (.ok, 1, [⟨["e"], 1⟩]) := by
  refine ⟨?_, ?_, ?_⟩
  · exact (C5_upload_classification ⟨false, 100, 10, 10, 604800⟩
      (fun _ => .response 200 "x") ["e"] 1 0).2 rfl
  · exact (((C5_upload_classification Config.defaults
      (fun _ => .response 503 "boom") ["e"] 1 0).1 rfl).1 503 "boom" rfl).1 (by decide)
  · exact (((C5_upload_classification Config.defaults
      (fun _ => .response 200 "ok") ["e"] 1 0).1 rfl).1 200 "ok" rfl).2 (by decide)

section RetryStepLemmas

open CloudCache

theorem Store.getTtl_delete_ne (s : Store) {q q' : String} (h : q ≠ q') :
    (s.delete q).getTtl q' = s.getTtl q' := by
  simp [Store.delete, Store.set, Store.getTtl, alookup_aerase_ne _ h]

theorem Store.getTtl_expire_self (s : Store) (q : String) (t : Nat)
    (hne : s.get q ≠ []) : (s.expire q t).getTtl q = some t := by
  have : (s.get q).isEmpty = false := by simp [List.isEmpty_iff]; exact hne
  simp [Store.expire, this, Store.getTtl, alookup]

/-- One `upload_retrying` loop step on an unparseable queue name: skipped. -/
theorem retryLoop_cons_skip (cfg : Config) (oracle : Nat → HttpEvent)
    (today q : String) (rest : List String) (remaining : Nat) (s : Store)
    (k total : Nat) (errs : List String) (tr : List UploadCall)
    (hparse : parseRetryAttempt q = none) :
    retryLoop cfg oracle today (q :: rest) remaining s k total errs tr =
      retryLoop cfg oracle today rest remaining s k total errs tr := by
  simp [retryLoop, hparse]

/-- One `upload_retrying` loop step with a 2xx response: queue deleted,
`remaining_count` decremented, total increased. -/
theorem retryLoop_cons_ok (cfg : Config) (oracle : Nat → HttpEvent)
    (today q : String) (rest : List String) (remaining : Nat) (s : Store)
    (k total : Nat) (errs : List String) (tr : List UploadCall)
    (a st : Nat) (m : String)
    (hparse : parseRetryAttempt q = some a)
    (hep : cfg.endpointConfigured = true)
    (hor : oracle k = .response st m)
    (h2xx : 200 ≤ st ∧ st ≤ 299) :
    retryLoop cfg oracle today (q :: rest) remaining s k total errs tr =
      retryLoop cfg oracle today rest (remaining - 1) (s.delete q) (k + 1)
        (total + (s.get q).length) errs (tr ++ [⟨s.get q, remaining⟩]) := by
  have hns : ¬ (400 ≤ st ∧ st ≤ 599) := by omega
  simp [retryLoop, hparse, upload, hep, hor, classifyEvent, hns]

/-- One `upload_retrying` loop step with a transport failure: the pass
stops, leaving the store untouched. -/
theorem retryLoop_cons_fail (cfg : Config) (oracle : Nat → HttpEvent)
    (today q : String) (rest : List String) (remaining : Nat) (s : Store)
    (k total : Nat) (errs : List String) (tr : List UploadCall)
    (a : Nat) (m : String)
    (hparse : parseRetryAttempt q = some a)
    (hep : cfg.endpointConfigured = true)
    (hor : oracle k = .exn m) :
    retryLoop cfg oracle today (q :: rest) remaining s k total errs tr =
      (total, errs ++ [m], s, k + 1, tr ++ [⟨s.get q, remaining⟩]) := by
  simp [retryLoop, hparse, upload, hep, hor, classifyEvent]

/-- One `upload_retrying` loop step with a server-error response: the queue
is promoted to the dated fail queue or renamed with the next attempt count,
and the pass continues. -/
theorem retryLoop_cons_raised (cfg : Config) (oracle : Nat → HttpEvent)
    (today q : String) (rest : List String) (remaining : Nat) (s : Store)
    (k total : Nat) (errs : List String) (tr : List UploadCall)
    (a st : Nat) (m : String)
    (hparse : parseRetryAttempt q = some a)
    (hep : cfg.endpointConfigured = true)
    (hor : oracle k = .response st m)
    (hsrv : 400 ≤ st ∧ st ≤ 599) :
    retryLoop cfg oracle today (q :: rest) remaining s k total errs tr =
      retryLoop cfg oracle today rest remaining
        (if cfg.max_retry ≤ a + 1 then
          ((s.lpushMany (failQueueName today) (s.get q)).expire
              (failQueueName today) cfg.fail_ttl).delete q
         else s.renamenx q (setAttemptSuffix q (a + 1)))
        (k + 1) total (errs ++ [m]) (tr ++ [⟨s.get q, remaining⟩]) := by
  simp [retryLoop, hparse, upload, hep, hor, classifyEvent, hsrv]

end RetryStepLemmas

open CloudCache in
/-- Unfolding of `upload_retrying` under a known queue listing. -/
theorem upload_retrying_eq (cfg : Config) (oracle : Nat → HttpEvent)
    (today : String) (s : Store) (k : Nat) (qs : List String)
    (hq : list_queues s "retr_" = qs) :
    upload_retrying cfg oracle today s k =
      ⟨(retryLoop cfg oracle today qs qs.length s k 0 [] []).1,
       (retryLoop cfg oracle today qs qs.length s k 0 [] []).2.1,
       decide (cfg.retry_queue_limit ≤ qs.length),
       (retryLoop cfg oracle today qs qs.length s k 0 [] []).2.2.1,
       (retryLoop cfg oracle today qs qs.length s k 0 [] []).2.2.2.1,
       (retryLoop cfg oracle today qs qs.length s k 0 [] []).2.2.2.2⟩ := by
  simp [upload_retrying, hq]

open CloudCache in
/-- C4: during `upload_retrying`, when the (single listed) retry queue with
parsed attempt suffix `a` receives a server-error response (a status in
400-599, for which `raise_for_status()` raises): if
`a + 1 >= max_retry`, its entries are pushed head-first onto the dated fail
queue, the fail queue's TTL is set to `fail_ttl` and the retry queue is
deleted; otherwise the retry queue is renamed (rename-if-absent) to the same
name with attempt suffix `a + 1`.  So attempt suffix `max_retry - 1` is the
last retry state before fail. -/
theorem C4_server_error_promotion (cfg : Config) (oracle : Nat → HttpEvent)
    (today q : String) (s : Store) (k a st : Nat) (m : String)
    (hq : list_queues s "retr_" = [q])
    (hparse : parseRetryAttempt q = some a)
    (hep : cfg.endpointConfigured = true)
    (hor : oracle k = .response st m)
    (hsrv : 400 ≤ st ∧ st ≤ 599)
    (hes : s.get q ≠ [])
    (hfq : failQueueName today ≠ q) :
    (cfg.max_retry ≤ a + 1 →
      (upload_retrying cfg oracle today s k).store.get (failQueueName today) =
        (s.get q).reverse ++ s.get (failQueueName today) ∧
      (upload_retrying cfg oracle today s k).store.getTtl (failQueueName today) =
        some cfg.fail_ttl ∧
      (upload_retrying cfg oracle today s k).store.get q = []) ∧
    (a + 1 < cfg.max_retry →
      s.get (setAttemptSuffix q (a + 1)) = [] →
      setAttemptSuffix q (a + 1) ≠ q →
      (upload_retrying cfg oracle today s k).store.get (setAttemptSuffix q (a + 1)) =
        s.get q ∧
      (upload_retrying cfg oracle today s k).store.get q = []) ∧
    (upload_retrying cfg oracle today s k).errors = [m] := by
  have hrw := upload_retrying_eq cfg oracle today s k [q] hq
  have hstep := retryLoop_cons_raised cfg oracle today q [] ([q].length) s k 0 [] []
    a st m hparse hep hor hsrv
  rw [hrw, hstep]
  simp only [retryLoop]
  refine ⟨?_, ?_, rfl⟩
  · intro hmax
    rw [if_pos hmax]
    have hfne : (s.lpushMany (failQueueName today) (s.get q)).get (failQueueName today) ≠ [] := by
      rw [Store.get_lpushMany_self]
      simp [hes]
    refine ⟨?_, ?_, Store.get_delete_self _ _⟩
    · rw [Store.get_delete_ne _ (Ne.symm hfq), Store.get_expire,
        Store.get_lpushMany_self]
    · rw [Store.getTtl_delete_ne _ (Ne.symm hfq),
        Store.getTtl_expire_self _ _ _ hfne]
  · intro hlt hnew1 hnew2
    rw [if_neg (by exact not_le.mpr hlt)]
    exact ⟨Store.get_renamenx_dst s (Ne.symm hnew2) hes hnew1,
      Store.get_renamenx_src s hes hnew1⟩

open CloudCache in
/-- Witness for C4, both branches: with `max_retry = 1` the queue at attempt
suffix 0 is promoted to the dated fail queue with the configured TTL; with
the default `max_retry = 10` it is renamed to attempt suffix 1. -/
theorem C4_server_error_promotion_witness :
    (upload_retrying ⟨true, 100, 1, 10, 604800⟩ (fun _ => .response 500 "e")
        "20240101" (Store.empty.set "retr_1_#0" ["x"]) 0).store.get
      "fail_20240101" = ["x"] ∧
    (upload_retrying ⟨true, 100, 1, 10, 604800⟩ (fun _ => .response 500 "e")
        "20240101" (Store.empty.set "retr_1_#0" ["x"]) 0).store.getTtl
      "fail_20240101" = some 604800 ∧
    (upload_retrying ⟨true, 100, 1, 10, 604800⟩ (fun _ => .response 500 "e")
        "20240101" (Store.empty.set "retr_1_#0" ["x"]) 0).store.get
      "retr_1_#0" = [] ∧
    (upload_retrying Config.defaults (fun _ => .response 500 "e")
        "20240101" (Store.empty.set "retr_1_#0" ["x"]) 0).store.get
      "retr_1_#1" = ["x"] := by
  have h1 := C4_server_error_promotion ⟨true, 100, 1, 10, 604800⟩
    (fun _ => .response 500 "e") "20240101" "retr_1_#0"
    (Store.empty.set "retr_1_#0" ["x"]) 0 0 500 "e"
    (by decide) (by decide) rfl rfl (by decide) (by decide) (by decide)
  have h2 := C4_server_error_promotion Config.defaults
    (fun _ => .response 500 "e") "20240101" "retr_1_#0"
    (Store.empty.set "retr_1_#0" ["x"]) 0 0 500 "e"
    (by decide) (by decide) rfl rfl (by decide) (by decide) (by decide)
  obtain ⟨hp1, hp2, hp3⟩ := h1.1 (by decide)
  obtain ⟨hr1, _⟩ := h2.2.1 (by decide) (by decide) (by decide)
  have e1 : failQueueName "20240101" = "fail_20240101" := rfl
  have e2 : setAttemptSuffix "retr_1_#0" (0 + 1) = "retr_1_#1" := by decide
  rw [e1] at hp1 hp2
  rw [e2] at hr1
  refine ⟨?_, ?_, hp3, ?_⟩
  · rw [hp1]; decide
  · rw [hp2]
  · rw [hr1]; decide

open CloudCache in
/-- C6: within a single `upload_retrying` pass over two listed retry queues,
a transport failure on the first queue appends the error and stops the pass
(no further POST, the store untouched), while a server error (a 400-599
status) on the first queue is handled (here: promotion to the fail queue)
and processing then continues with the second queue. -/
theorem C6_transport_stops_server_continues (cfg : Config)
    (oracleT oracleS : Nat → HttpEvent) (today q1 q2 : String) (s : Store)
    (k a1 a2 st1 st2 : Nat) (m m1 m2 : String)
    (hq : list_queues s "retr_" = [q1, q2])
    (hp1 : parseRetryAttempt q1 = some a1)
    (hp2 : parseRetryAttempt q2 = some a2)
    (hep : cfg.endpointConfigured = true)
    (hne : q1 ≠ q2)
    (hfq2 : failQueueName today ≠ q2)
    (hmax : cfg.max_retry ≤ a1 + 1)
    (hoT : oracleT k = .exn m)
    (hoS1 : oracleS k = .response st1 m1)
    (hsrv1 : 400 ≤ st1 ∧ st1 ≤ 599)
    (hoS2 : oracleS (k + 1) = .response st2 m2)
    (h2xx2 : 200 ≤ st2 ∧ st2 ≤ 299) :
    ((upload_retrying cfg oracleT today s k).calls = [⟨s.get q1, 2⟩] ∧
     (upload_retrying cfg oracleT today s k).errors = [m] ∧
     (upload_retrying cfg oracleT today s k).store = s ∧
     (upload_retrying cfg oracleT today s k).total = 0) ∧
    ((upload_retrying cfg oracleS today s k).calls =
        [⟨s.get q1, 2⟩, ⟨s.get q2, 2⟩] ∧
     (upload_retrying cfg oracleS today s k).errors = [m1] ∧
     (upload_retrying cfg oracleS today s k).total = (s.get q2).length ∧
     (upload_retrying cfg oracleS today s k).store.get q2 = []) := by
  have hB : (((s.lpushMany (failQueueName today) (s.get q1)).expire
      (failQueueName today) cfg.fail_ttl).delete q1).get q2 = s.get q2 := by
    rw [Store.get_delete_ne _ hne, Store.get_expire, Store.get_lpushMany_ne _ _ hfq2]
  constructor
  · rw [upload_retrying_eq cfg oracleT today s k [q1, q2] hq,
      retryLoop_cons_fail cfg oracleT today q1 [q2] ([q1, q2].length) s k 0 [] []
        a1 m hp1 hep hoT]
    exact ⟨by simp, rfl, rfl, rfl⟩
  · rw [upload_retrying_eq cfg oracleS today s k [q1, q2] hq,
      retryLoop_cons_raised cfg oracleS today q1 [q2] ([q1, q2].length) s k 0 [] []
        a1 st1 m1 hp1 hep hoS1 hsrv1,
      if_pos hmax,
      retryLoop_cons_ok cfg oracleS today q2 [] ([q1, q2].length) _
        (k + 1) 0 _ _ a2 st2 m2 hp2 hep hoS2 h2xx2]
    simp only [retryLoop]
    refine ⟨by simp [hB], rfl, by simp [hB], ?_⟩
    rw [Store.get_delete_self]

open CloudCache in
/-- Witness for C6: two retry queues; a transport failure stops after one
POST; a 500 on the first queue still lets the second be uploaded. -/
theorem C6_transport_stops_server_continues_witness :
    (upload_retrying ⟨true, 100, 1, 10, 604800⟩ (fun _ => .exn "down")
        "20240101" ((Store.empty.set "retr_1_#0" ["x"]).set "retr_2_#0" ["y"])
        0).calls = [⟨["x"], 2⟩] ∧
    (upload_retrying ⟨true, 100, 1, 10, 604800⟩
        (fun j => if j = 0 then .response 500 "e" else .response 200 "ok")
        "20240101" ((Store.empty.set "retr_1_#0" ["x"]).set "retr_2_#0" ["y"])
        0).calls = [⟨["x"], 2⟩, ⟨["y"], 2⟩] := by
  have h := C6_transport_stops_server_continues ⟨true, 100, 1, 10, 604800⟩
    (fun _ => .exn "down")
    (fun j => if j = 0 then .response 500 "e" else .response 200 "ok")
    "20240101" "retr_1_#0" "retr_2_#0"
    ((Store.empty.set "retr_1_#0" ["x"]).set "retr_2_#0" ["y"])
    0 0 0 500 200 "down" "e" "ok"
    (by decide) (by decide) (by decide) rfl (by decide) (by decide)
    (by decide) rfl rfl (by decide) rfl (by decide)
  refine ⟨?_, ?_⟩
  · rw [h.1.1]; decide
  · rw [h.2.1]; decide

open CloudCache in
/-- C7: in `upload_retrying`, each upload call receives `splay_factor` equal
to `remaining_count` (initially the number of listed retry queues,
decremented only on a successful upload); with exactly three retry queues
present and all uploads succeeding, the three upload calls receive
`splay_factor` values 3, 2, 1 in processing order. -/
theorem C7_splay_factors (cfg : Config) (oracle : Nat → HttpEvent)
    (today q1 q2 q3 : String) (s : Store)
    (k a1 a2 a3 st1 st2 st3 : Nat) (m1 m2 m3 : String)
    (hq : list_queues s "retr_" = [q1, q2, q3])
    (hp1 : parseRetryAttempt q1 = some a1)
    (hp2 : parseRetryAttempt q2 = some a2)
    (hp3 : parseRetryAttempt q3 = some a3)
    (hep : cfg.endpointConfigured = true)
    (hne12 : q1 ≠ q2) (hne13 : q1 ≠ q3) (hne23 : q2 ≠ q3)
    (ho1 : oracle k = .response st1 m1) (h1 : 200 ≤ st1 ∧ st1 ≤ 299)
    (ho2 : oracle (k + 1) = .response st2 m2) (h2 : 200 ≤ st2 ∧ st2 ≤ 299)
    (ho3 : oracle (k + 2) = .response st3 m3) (h3 : 200 ≤ st3 ∧ st3 ≤ 299) :
    (upload_retrying cfg oracle today s k).calls =
      [⟨s.get q1, 3⟩, ⟨s.get q2, 2⟩, ⟨s.get q3, 1⟩] ∧
    (upload_retrying cfg oracle today s k).total =
      (s.get q1).length + (s.get q2).length + (s.get q3).length ∧
    (upload_retrying cfg oracle today s k).errors = [] := by
  have g2 : (s.delete q1).get q2 = s.get q2 := Store.get_delete_ne _ hne12
  have g3 : ((s.delete q1).delete q2).get q3 = s.get q3 := by
    rw [Store.get_delete_ne _ hne23, Store.get_delete_ne _ hne13]
  have e21 : k + 1 + 1 = k + 2 := by omega
  rw [upload_retrying_eq cfg oracle today s k [q1, q2, q3] hq,
    retryLoop_cons_ok cfg oracle today q1 [q2, q3] ([q1, q2, q3].length) s k 0 [] []
      a1 st1 m1 hp1 hep ho1 h1,
    retryLoop_cons_ok cfg oracle today q2 [q3] ([q1, q2, q3].length - 1) _
      (k + 1) _ _ _ a2 st2 m2 hp2 hep ho2 h2,
    retryLoop_cons_ok cfg oracle today q3 [] ([q1, q2, q3].length - 1 - 1) _
      (k + 1 + 1) _ _ _ a3 st3 m3 hp3 hep (by rw [e21]; exact ho3) h3]
  simp only [retryLoop]
  refine ⟨?_, ?_, ?_⟩
  · simp [g2, g3]
  · simp [g2, g3]
    try omega
  · trivial

open CloudCache in
/-- Witness for C7: three concrete retry queues, all uploads 200. -/
theorem C7_splay_factors_witness :
    (upload_retrying Config.defaults (fun _ => .response 200 "ok") "20240101"
        (((Store.empty.set "retr_1_#0" ["x"]).set "retr_2_#0" ["y", "z"]).set
          "retr_3_#0" ["w"]) 0).calls =
      [⟨["x"], 3⟩, ⟨["y", "z"], 2⟩, ⟨["w"], 1⟩] := by
  have h := C7_splay_factors Config.defaults (fun _ => .response 200 "ok")
    "20240101" "retr_1_#0" "retr_2_#0" "retr_3_#0"
    (((Store.empty.set "retr_1_#0" ["x"]).set "retr_2_#0" ["y", "z"]).set
      "retr_3_#0" ["w"])
    0 0 0 0 200 200 200 "ok" "ok" "ok"
    (by decide) (by decide) (by decide) (by decide) rfl
    (by decide) (by decide) (by decide)
    rfl (by decide) rfl (by decide) rfl (by decide)
  rw [h.1]
  decide

open CloudCache in
/-- C8 counterexample: the queue name `retr_a_1_#0` does not match the
claimed pattern `^retr_(\d+)_#(\d+)$`, yet `upload_retrying` does attempt an
upload for it: the source regex `^(.+)_(\d+)_#(\d+)$` accepts any non-empty
`type` group, not only the literal `retr`. -/
theorem C8_counterexample :
    specRetryNameMatch "retr_a_1_#0" = false ∧
    parseRetryAttempt "retr_a_1_#0" = some 0 ∧
    (upload_retrying Config.defaults (fun _ => .response 200 "ok") "20240101"
        (Store.empty.set "retr_a_1_#0" ["x"]) 0).calls = [⟨["x"], 1⟩] := by
  refine ⟨by decide, by decide, by decide⟩

open CloudCache in
/-- C8 (amended): `upload_retrying` attempts an upload for a listed queue
only if its name matches the source regex `^(.+)_(\d+)_#(\d+)$` (an
arbitrary non-empty type prefix, not only the literal `retr`); a listed
queue whose name fails to match is logged and skipped, is never deleted and
is still present unchanged after the pass, while the other retry queues are
processed normally. -/
theorem C8_unparseable_skipped (cfg : Config) (oracle : Nat → HttpEvent)
    (today qb qg : String) (s : Store) (k a st : Nat) (m : String)
    (hq : list_queues s "retr_" = [qb, qg])
    (hpb : parseRetryAttempt qb = none)
    (hpg : parseRetryAttempt qg = some a)
    (hep : cfg.endpointConfigured = true)
    (hne : qb ≠ qg)
    (ho : oracle k = .response st m) (h2 : 200 ≤ st ∧ st ≤ 299) :
    (upload_retrying cfg oracle today s k).calls = [⟨s.get qg, 2⟩] ∧
    (upload_retrying cfg oracle today s k).store.get qb = s.get qb ∧
    (upload_retrying cfg oracle today s k).store.get qg = [] ∧
    (upload_retrying cfg oracle today s k).total = (s.get qg).length ∧
    (upload_retrying cfg oracle today s k).errors = [] := by
  rw [upload_retrying_eq cfg oracle today s k [qb, qg] hq,
    retryLoop_cons_skip cfg oracle today qb [qg] ([qb, qg].length) s k 0 [] [] hpb,
    retryLoop_cons_ok cfg oracle today qg [] ([qb, qg].length) s k 0 [] []
      a st m hpg hep ho h2]
  simp only [retryLoop]
  refine ⟨by simp, ?_, ?_, by simp, ?_⟩
  · exact Store.get_delete_ne _ (Ne.symm hne)
  · exact Store.get_delete_self _ _
  · trivial

open CloudCache in
/-- Witness for C8: a malformed queue name sorted before a well-formed one;
only the well-formed queue is uploaded and deleted, the malformed one stays. -/
theorem C8_unparseable_skipped_witness :
    (upload_retrying Config.defaults (fun _ => .response 200 "ok") "20240101"
        ((Store.empty.set "retr_1_#0" ["g"]).set "retr_0bad" ["b"]) 0).calls =
      [⟨["g"], 2⟩] ∧
    (upload_retrying Config.defaults (fun _ => .response 200 "ok") "20240101"
        ((Store.empty.set "retr_1_#0" ["g"]).set "retr_0bad" ["b"]) 0).store.get
      "retr_0bad" = ["b"] ∧
    (upload_retrying Config.defaults (fun _ => .response 200 "ok") "20240101"
        ((Store.empty.set "retr_1_#0" ["g"]).set "retr_0bad" ["b"]) 0).store.get
      "retr_1_#0" = [] := by
  have h := C8_unparseable_skipped Config.defaults (fun _ => .response 200 "ok")
    "20240101" "retr_0bad" "retr_1_#0"
    ((Store.empty.set "retr_1_#0" ["g"]).set "retr_0bad" ["b"])
    0 0 200 "ok"
    (by decide) (by decide) (by decide) rfl (by decide) rfl (by decide)
  refine ⟨?_, ?_, h.2.2.1⟩
  · rw [h.1]; decide
  · rw [h.2.1]; decide

section BatchCapMachinery

open CloudCache

theorem chPrefix_append_self (l t : List Char) : chPrefix l (l ++ t) = true := by
  induction l with
  | nil => rfl
  | cons a as ih => simp [chPrefix, ih]

theorem chPrefix_head {c1 c2 : Char} {t1 t2 l : List Char}
    (h1 : chPrefix (c1 :: t1) l = true) (h2 : chPrefix (c2 :: t2) l = true) :
    c1 = c2 := by
  cases l with
  | nil => simp [chPrefix] at h1
  | cons b bs =>
      simp [chPrefix] at h1 h2
      rw [h1.1, h2.1]

theorem ne_of_prefix_true_false {pre a b : String}
    (ha : nameHasPrefix pre a = true) (hb : nameHasPrefix pre b = false) :
    a ≠ b := by
  intro h
  rw [h] at ha
  rw [ha] at hb
  simp at hb

/-- Any `fail_`-prefixed name (in particular a dated fail queue) is not
`retr_`-prefixed. -/
theorem retr_prefixed_ne_fail_prefixed {q q' : String}
    (hq : nameHasPrefix "retr_" q = true) (hq' : nameHasPrefix "fail_" q' = true) :
    q ≠ q' := by
  intro h
  rw [h] at hq
  unfold nameHasPrefix at hq hq'
  have hr : "retr_".data = 'r' :: ['e', 't', 'r', '_'] := rfl
  have hf : "fail_".data = 'f' :: ['a', 'i', 'l', '_'] := rfl
  rw [hr] at hq
  rw [hf] at hq'
  have := chPrefix_head hq hq'
  exact absurd this (by decide)

theorem fail_prefix_failQueueName (d : String) :
    nameHasPrefix "fail_" (failQueueName d) = true := by
  unfold nameHasPrefix failQueueName
  rw [String.data_append]
  exact chPrefix_append_self _ _

theorem retr_prefix_retryQueueName (ts : String) (a : Nat) :
    nameHasPrefix "retr_" (retryQueueName ts a) = true := by
  unfold nameHasPrefix retryQueueName
  simp only [String.data_append, List.append_assoc]
  exact chPrefix_append_self _ _

theorem mem_insertSorted {x y : String} {l : List String} :
    x ∈ insertSorted y l ↔ x = y ∨ x ∈ l := by
  induction l with
  | nil => simp [insertSorted]
  | cons z zs ih =>
      unfold insertSorted
      split
      · simp
      · simp [ih]
        tauto

theorem mem_sortStrings {x : String} {l : List String} :
    x ∈ sortStrings l ↔ x ∈ l := by
  induction l with
  | nil => simp [sortStrings]
  | cons y ys ih => simp [sortStrings, mem_insertSorted, ih]

/-- Every name returned by `list_queues s (pre ++ "*")` carries the prefix. -/
theorem list_queues_prefix {s : Store} {pre q : String}
    (h : q ∈ list_queues s pre) : nameHasPrefix pre q = true := by
  unfold list_queues at h
  rw [mem_sortStrings] at h
  exact (List.mem_filter.mp h).2

/-- The batch-cap invariant P4 rests on: both work queues and every
`retr_`-prefixed queue hold at most `batch_size` entries. -/
def BatchCapInv (B : Nat) (s : Store) : Prop :=
  (s.get PENDING_WORK_QUEUE).length ≤ B ∧
  (s.get FAIL_WORK_QUEUE).length ≤ B ∧
  ∀ q, nameHasPrefix "retr_" q = true → (s.get q).length ≤ B

theorem BatchCapInv.empty (B : Nat) : BatchCapInv B Store.empty := by
  refine ⟨by simp [Store.get, Store.empty, alookup], by simp [Store.get, Store.empty, alookup], ?_⟩
  intro q _
  simp [Store.get, Store.empty, alookup]

theorem BatchCapInv.delete {B : Nat} {s : Store} (h : BatchCapInv B s)
    (q : String) : BatchCapInv B (s.delete q) := by
  obtain ⟨h1, h2, h3⟩ := h
  refine ⟨?_, ?_, ?_⟩
  · by_cases hq : q = PENDING_WORK_QUEUE
    · rw [hq, Store.get_delete_self]; simp
    · rw [Store.get_delete_ne _ hq]; exact h1
  · by_cases hq : q = FAIL_WORK_QUEUE
    · rw [hq, Store.get_delete_self]; simp
    · rw [Store.get_delete_ne _ hq]; exact h2
  · intro x hx
    by_cases hq : q = x
    · rw [hq, Store.get_delete_self]; simp
    · rw [Store.get_delete_ne _ hq]; exact h3 x hx

theorem BatchCapInv.renamenx {B : Nat} {s : Store} (h : BatchCapInv B s)
    (src dst : String) (hval : (s.get src).length ≤ B) :
    BatchCapInv B (s.renamenx src dst) := by
  by_cases hc : (s.get src).isEmpty ∨ ¬ (s.get dst).isEmpty
  · have : s.renamenx src dst = s := by
      unfold Store.renamenx
      rw [if_pos hc]
    rw [this]; exact h
  · push_neg at hc
    have hsrcB : (s.get src).isEmpty = false := by simpa using hc.1
    have hdst : s.get dst = [] := List.isEmpty_iff.mp hc.2
    have hsrc : s.get src ≠ [] := by
      intro he
      simp [he] at hsrcB
    have hne : src ≠ dst := by
      intro he; rw [he] at hsrc; exact hsrc hdst
    obtain ⟨h1, h2, h3⟩ := h
    have key : ∀ x : String, ((s.renamenx src dst).get x).length ≤
        max (s.get x).length (s.get src).length := by
      intro x
      by_cases hx1 : x = dst
      · rw [hx1, Store.get_renamenx_dst s hne hsrc hdst]
        exact le_max_right _ _
      · by_cases hx2 : x = src
        · rw [hx2, Store.get_renamenx_src s hsrc hdst]
          simp
        · rw [Store.get_renamenx_other s hx2 hx1]
          exact le_max_left _ _
    refine ⟨?_, ?_, ?_⟩
    · exact le_trans (key _) (max_le h1 hval)
    · exact le_trans (key _) (max_le h2 hval)
    · intro x hx
      exact le_trans (key _) (max_le (h3 x hx) hval)

end BatchCapMachinery

section BatchCapEngine

open CloudCache

theorem dequeue_batch_caps (s : Store) (src wq : String) (n : Nat)
    (hne : src ≠ wq) :
    (dequeue_batch s src wq n).1.length ≤ max n (s.get wq).length ∧
    ((dequeue_batch s src wq n).2.get wq).length ≤ max n (s.get wq).length ∧
    ∀ q, q ≠ src → q ≠ wq → (dequeue_batch s src wq n).2.get q = s.get q := by
  by_cases hd : s.get wq = []
  · by_cases hs : s.get src = []
    · have hdB : (s.get wq).isEmpty = true := by simp [hd]
      have hsB : (s.get src).isEmpty = true := by simp [hs]
      have heq : dequeue_batch s src wq n = ([], s) := by
        simp [dequeue_batch, hdB, hsB]
      rw [heq]
      exact ⟨by simp, by simp [hd], fun q _ _ => rfl⟩
    · obtain ⟨m1, m2, m3, m4⟩ := dequeue_batch_move s src wq n hne hd hs
      have hm : min n (s.get src).length ≤ (s.get src).length := min_le_right _ _
      have hlen : ((s.get src).drop
          ((s.get src).length - min n (s.get src).length)).length =
          min n (s.get src).length := by
        simp [Nat.sub_sub_self hm]
      refine ⟨?_, ?_, m4⟩
      · rw [m1, List.length_reverse, hlen]
        exact le_max_of_le_left (min_le_left _ _)
      · rw [m3, hlen]
        exact le_max_of_le_left (min_le_left _ _)
  · have hdB : (s.get wq).isEmpty = false := by
      simp [List.isEmpty_iff]; exact hd
    have heq : dequeue_batch s src wq n = (s.get wq, s) := by
      simp [dequeue_batch, hdB]
    rw [heq]
    exact ⟨le_max_right _ _, le_max_right _ _, fun q _ _ => rfl⟩

theorem upload_calls_entries (cfg : Config) (oracle : Nat → HttpEvent)
    (es : List Entry) (sp k : Nat) :
    ∀ c ∈ (upload cfg oracle es sp k).2.2, c.entries = es := by
  unfold upload
  split <;> simp

theorem upload_batch_cap (cfg : Config) (oracle : Nat → HttpEvent) (s : Store)
    (src wq : String) (k : Nat)
    (hne : src ≠ wq)
    (hsPW : src ≠ PENDING_WORK_QUEUE) (hsFW : src ≠ FAIL_WORK_QUEUE)
    (hsR : nameHasPrefix "retr_" src = false)
    (hwq : wq = PENDING_WORK_QUEUE ∨ wq = FAIL_WORK_QUEUE)
    (hInv : BatchCapInv cfg.batch_size s) :
    BatchCapInv cfg.batch_size (upload_batch cfg oracle s src wq k).store ∧
    ∀ c ∈ (upload_batch cfg oracle s src wq k).calls,
      c.entries.length ≤ cfg.batch_size := by
  obtain ⟨d1, d2, d3⟩ := dequeue_batch_caps s src wq cfg.batch_size hne
  have hwqB : (s.get wq).length ≤ cfg.batch_size := by
    rcases hwq with h | h
    · rw [h]; exact hInv.1
    · rw [h]; exact hInv.2.1
  have hmax : max cfg.batch_size (s.get wq).length = cfg.batch_size :=
    max_eq_left hwqB
  rw [hmax] at d1 d2
  have hInv2 : BatchCapInv cfg.batch_size (dequeue_batch s src wq cfg.batch_size).2 := by
    obtain ⟨h1, h2, h3⟩ := hInv
    refine ⟨?_, ?_, ?_⟩
    · by_cases hq : PENDING_WORK_QUEUE = wq
      · rw [hq]; exact d2
      · rw [d3 _ (Ne.symm hsPW) hq]; exact h1
    · by_cases hq : FAIL_WORK_QUEUE = wq
      · rw [hq]; exact d2
      · rw [d3 _ (Ne.symm hsFW) hq]; exact h2
    · intro x hx
      have hx1 : x ≠ src := by
        intro he
        rw [he] at hx
        rw [hx] at hsR
        cases hsR
      have hx2 : x ≠ wq := by
        rcases hwq with h | h <;> rw [h]
        · exact ne_of_prefix_true_false hx (by decide)
        · exact ne_of_prefix_true_false hx (by decide)
      rw [d3 x hx1 hx2]
      exact h3 x hx
  by_cases hb : (dequeue_batch s src wq cfg.batch_size).1.isEmpty = true
  · have heq : upload_batch cfg oracle s src wq k =
        ⟨.ok ⟨0, none⟩, (dequeue_batch s src wq cfg.batch_size).2, k, []⟩ := by
      simp [upload_batch, hb]
    rw [heq]
    exact ⟨hInv2, by simp⟩
  · rw [Bool.not_eq_true] at hb
    rcases hu : upload cfg oracle (dequeue_batch s src wq cfg.batch_size).1 1 k
      with ⟨r, k1, tr1⟩
    have htr : ∀ c ∈ tr1, c.entries.length ≤ cfg.batch_size := by
      intro c hc
      have he := upload_calls_entries cfg oracle
        (dequeue_batch s src wq cfg.batch_size).1 1 k c (by rw [hu]; exact hc)
      rw [he]
      exact d1
    cases r with
    | ok =>
        have heq : upload_batch cfg oracle s src wq k =
            ⟨.ok ⟨(dequeue_batch s src wq cfg.batch_size).1.length, none⟩,
             ((dequeue_batch s src wq cfg.batch_size).2).delete wq, k1, tr1⟩ := by
          simp [upload_batch, hb, hu]
        rw [heq]
        exact ⟨hInv2.delete wq, htr⟩
    | fail m =>
        have heq : upload_batch cfg oracle s src wq k =
            ⟨.ok ⟨0, some m⟩, (dequeue_batch s src wq cfg.batch_size).2, k1, tr1⟩ := by
          simp [upload_batch, hb, hu]
        rw [heq]
        exact ⟨hInv2, htr⟩
    | raised m =>
        have heq : upload_batch cfg oracle s src wq k =
            ⟨.error m, (dequeue_batch s src wq cfg.batch_size).2, k1, tr1⟩ := by
          simp [upload_batch, hb, hu]
        rw [heq]
        exact ⟨hInv2, htr⟩

end BatchCapEngine

section BatchCapContinuing

open CloudCache

theorem contLoop_cap (cfg : Config) (oracle : Nat → HttpEvent) (src wq : String)
    (hne : src ≠ wq)
    (hsPW : src ≠ PENDING_WORK_QUEUE) (hsFW : src ≠ FAIL_WORK_QUEUE)
    (hsR : nameHasPrefix "retr_" src = false)
    (hwq : wq = PENDING_WORK_QUEUE ∨ wq = FAIL_WORK_QUEUE) :
    ∀ (fuel : Nat) (last acc : BatchRes) (s : Store) (k : Nat) (tr : List UploadCall),
      BatchCapInv cfg.batch_size s →
      (∀ c ∈ tr, c.entries.length ≤ cfg.batch_size) →
      BatchCapInv cfg.batch_size (contLoop cfg oracle src wq fuel last acc s k tr).store ∧
      ∀ c ∈ (contLoop cfg oracle src wq fuel last acc s k tr).calls,
        c.entries.length ≤ cfg.batch_size := by
  intro fuel
  induction fuel with
  | zero =>
      intro last acc s k tr hInv htr
      unfold contLoop
      split
      · exact ⟨hInv, htr⟩
      · exact ⟨hInv, htr⟩
  | succ fuel ih =>
      intro last acc s k tr hInv htr
      unfold contLoop
      split
      · rcases hub : upload_batch cfg oracle s src wq k with ⟨r, s1, k1, tr1⟩
        have hcap := upload_batch_cap cfg oracle s src wq k hne hsPW hsFW hsR hwq hInv
        rw [hub] at hcap
        have htr1 : ∀ c ∈ tr ++ tr1, c.entries.length ≤ cfg.batch_size := by
          intro c hc
          rcases List.mem_append.mp hc with h | h
          · exact htr c h
          · exact hcap.2 c h
        cases r with
        | ok res => exact ih res _ s1 k1 (tr ++ tr1) hcap.1 htr1
        | error m => exact ⟨hcap.1, htr1⟩
      · exact ⟨hInv, htr⟩

theorem upload_batch_continuing_cap (cfg : Config) (oracle : Nat → HttpEvent)
    (s : Store) (src wq : String) (k fuel : Nat)
    (hne : src ≠ wq)
    (hsPW : src ≠ PENDING_WORK_QUEUE) (hsFW : src ≠ FAIL_WORK_QUEUE)
    (hsR : nameHasPrefix "retr_" src = false)
    (hwq : wq = PENDING_WORK_QUEUE ∨ wq = FAIL_WORK_QUEUE)
    (hInv : BatchCapInv cfg.batch_size s) :
    BatchCapInv cfg.batch_size
      (upload_batch_continuing cfg oracle s src wq k fuel).store ∧
    ∀ c ∈ (upload_batch_continuing cfg oracle s src wq k fuel).calls,
      c.entries.length ≤ cfg.batch_size := by
  rcases hub : upload_batch cfg oracle s src wq k with ⟨r, s1, k1, tr1⟩
  have hcap := upload_batch_cap cfg oracle s src wq k hne hsPW hsFW hsR hwq hInv
  rw [hub] at hcap
  unfold upload_batch_continuing
  rw [hub]
  cases r with
  | ok res =>
      exact contLoop_cap cfg oracle src wq hne hsPW hsFW hsR hwq fuel res res s1 k1
        tr1 hcap.1 hcap.2
  | error m => exact ⟨hcap.1, hcap.2⟩

theorem upload_pending_cap (cfg : Config) (oracle : Nat → HttpEvent)
    (now : String) (s : Store) (k fuel : Nat)
    (hInv : BatchCapInv cfg.batch_size s) :
    BatchCapInv cfg.batch_size (upload_pending cfg oracle now s k fuel).store ∧
    ∀ c ∈ (upload_pending cfg oracle now s k fuel).calls,
      c.entries.length ≤ cfg.batch_size := by
  have hcap := upload_batch_continuing_cap cfg oracle s PENDING_QUEUE
    PENDING_WORK_QUEUE k fuel (by decide) (by decide) (by decide) (by decide)
    (Or.inl rfl) hInv
  rcases hub : upload_batch_continuing cfg oracle s PENDING_QUEUE
      PENDING_WORK_QUEUE k fuel with ⟨r, s1, k1, tr1⟩
  rw [hub] at hcap
  unfold upload_pending
  rw [hub]
  cases r with
  | ok res => exact hcap
  | error m =>
      refine ⟨?_, hcap.2⟩
      exact hcap.1.renamenx PENDING_WORK_QUEUE (retryQueueName now 0) hcap.1.1

end BatchCapContinuing

section BatchCapDrives

open CloudCache

theorem fail_prefixed_not_retr {q : String}
    (h : nameHasPrefix "fail_" q = true) : nameHasPrefix "retr_" q = false := by
  cases hE : nameHasPrefix "retr_" q
  · rfl
  · exact absurd rfl (retr_prefixed_ne_fail_prefixed hE h)

/-- The pipelined fail-queue promotion preserves the batch-cap invariant:
only the (unconstrained) dated fail queue grows; the retry queue is
deleted. -/
theorem BatchCapInv.promote {B : Nat} {s : Store} (h : BatchCapInv B s)
    (today q : String) (hq : nameHasPrefix "retr_" q = true) (ttl : Nat)
    (es : List Entry) :
    BatchCapInv B (((s.lpushMany (failQueueName today) es).expire
      (failQueueName today) ttl).delete q) := by
  have hfail := fail_prefix_failQueueName today
  have hqPW : q ≠ PENDING_WORK_QUEUE := ne_of_prefix_true_false hq (by decide)
  have hqFW : q ≠ FAIL_WORK_QUEUE := ne_of_prefix_true_false hq (by decide)
  have hfPW : failQueueName today ≠ PENDING_WORK_QUEUE :=
    ne_of_prefix_true_false hfail (by decide)
  have hfFW : failQueueName today ≠ FAIL_WORK_QUEUE :=
    ne_of_prefix_true_false hfail (by decide)
  obtain ⟨h1, h2, h3⟩ := h
  refine ⟨?_, ?_, ?_⟩
  · rw [Store.get_delete_ne _ hqPW, Store.get_expire,
      Store.get_lpushMany_ne _ _ hfPW]
    exact h1
  · rw [Store.get_delete_ne _ hqFW, Store.get_expire,
      Store.get_lpushMany_ne _ _ hfFW]
    exact h2
  · intro x hx
    by_cases hxq : q = x
    · rw [← hxq, Store.get_delete_self]
      simp
    · have hfx : failQueueName today ≠ x :=
        (retr_prefixed_ne_fail_prefixed hx hfail).symm
      rw [Store.get_delete_ne _ hxq, Store.get_expire,
        Store.get_lpushMany_ne _ _ hfx]
      exact h3 x hx

/-- Generic unfolding of one `upload_retrying` loop step on a parseable
queue name (no assumption on the upload outcome). -/
theorem retryLoop_cons_eq (cfg : Config) (oracle : Nat → HttpEvent)
    (today q : String) (rest : List String) (remaining : Nat) (s : Store)
    (k total : Nat) (errs : List String) (tr : List UploadCall) (a : Nat)
    (hparse : parseRetryAttempt q = some a) :
    retryLoop cfg oracle today (q :: rest) remaining s k total errs tr =
      match upload cfg oracle (s.get q) remaining k with
      | (.ok, k1, tr1) =>
          retryLoop cfg oracle today rest (remaining - 1) (s.delete q) k1
            (total + (s.get q).length) errs (tr ++ tr1)
      | (.fail m, k1, tr1) => (total, errs ++ [m], s, k1, tr ++ tr1)
      | (.raised m, k1, tr1) =>
          retryLoop cfg oracle today rest remaining
            (if cfg.max_retry ≤ a + 1 then
              ((s.lpushMany (failQueueName today) (s.get q)).expire
                  (failQueueName today) cfg.fail_ttl).delete q
             else s.renamenx q (setAttemptSuffix q (a + 1)))
            k1 total (errs ++ [m]) (tr ++ tr1) := by
  simp only [retryLoop, hparse]

theorem retryLoop_cap (cfg : Config) (oracle : Nat → HttpEvent) (today : String) :
    ∀ (qs : List String) (remaining : Nat) (s : Store) (k total : Nat)
      (errs : List String) (tr : List UploadCall),
      BatchCapInv cfg.batch_size s →
      (∀ q ∈ qs, nameHasPrefix "retr_" q = true) →
      (∀ c ∈ tr, c.entries.length ≤ cfg.batch_size) →
      BatchCapInv cfg.batch_size
        (retryLoop cfg oracle today qs remaining s k total errs tr).2.2.1 ∧
      ∀ c ∈ (retryLoop cfg oracle today qs remaining s k total errs tr).2.2.2.2,
        c.entries.length ≤ cfg.batch_size := by
  intro qs
  induction qs with
  | nil =>
      intro remaining s k total errs tr hInv _ htr
      simp only [retryLoop]
      exact ⟨hInv, htr⟩
  | cons q rest ih =>
      intro remaining s k total errs tr hInv hqs htr
      have hq : nameHasPrefix "retr_" q = true := hqs q (by simp)
      have hrest : ∀ x ∈ rest, nameHasPrefix "retr_" x = true := by
        intro x hx
        exact hqs x (by simp [hx])
      have hqB : (s.get q).length ≤ cfg.batch_size := hInv.2.2 q hq
      cases hp : parseRetryAttempt q with
      | none =>
          rw [retryLoop_cons_skip cfg oracle today q rest remaining s k total errs tr hp]
          exact ih remaining s k total errs tr hInv hrest htr
      | some a =>
          rw [retryLoop_cons_eq cfg oracle today q rest remaining s k total errs tr a hp]
          rcases hu : upload cfg oracle (s.get q) remaining k with ⟨r, k1, tr1⟩
          have htr1 : ∀ c ∈ tr ++ tr1, c.entries.length ≤ cfg.batch_size := by
            intro c hc
            rcases List.mem_append.mp hc with h | h
            · exact htr c h
            · have he := upload_calls_entries cfg oracle (s.get q) remaining k c
                (by rw [hu]; exact h)
              rw [he]
              exact hqB
          cases r with
          | ok =>
              exact ih (remaining - 1) (s.delete q) k1 (total + (s.get q).length)
                errs (tr ++ tr1) (hInv.delete q) hrest htr1
          | fail m => exact ⟨hInv, htr1⟩
          | raised m =>
              by_cases hm : cfg.max_retry ≤ a + 1
              · rw [if_pos hm]
                exact ih remaining _ k1 total (errs ++ [m]) (tr ++ tr1)
                  (hInv.promote today q hq cfg.fail_ttl (s.get q)) hrest htr1
              · rw [if_neg hm]
                exact ih remaining _ k1 total (errs ++ [m]) (tr ++ tr1)
                  (hInv.renamenx q (setAttemptSuffix q (a + 1)) hqB) hrest htr1

theorem upload_retrying_cap (cfg : Config) (oracle : Nat → HttpEvent)
    (today : String) (s : Store) (k : Nat)
    (hInv : BatchCapInv cfg.batch_size s) :
    BatchCapInv cfg.batch_size (upload_retrying cfg oracle today s k).store ∧
    ∀ c ∈ (upload_retrying cfg oracle today s k).calls,
      c.entries.length ≤ cfg.batch_size := by
  have h := retryLoop_cap cfg oracle today (list_queues s "retr_")
    (list_queues s "retr_").length s k 0 [] [] hInv
    (fun q hq => list_queues_prefix hq) (by simp)
  exact h

theorem failLoop_cap (cfg : Config) (oracle : Nat → HttpEvent) (fuel : Nat) :
    ∀ (qs : List String) (s : Store) (k total : Nat) (errs : List String)
      (tr : List UploadCall),
      BatchCapInv cfg.batch_size s →
      (∀ q ∈ qs, nameHasPrefix "fail_" q = true) →
      (∀ c ∈ tr, c.entries.length ≤ cfg.batch_size) →
      BatchCapInv cfg.batch_size
        (failLoop cfg oracle fuel qs s k total errs tr).store ∧
      ∀ c ∈ (failLoop cfg oracle fuel qs s k total errs tr).calls,
        c.entries.length ≤ cfg.batch_size := by
  intro qs
  induction qs with
  | nil =>
      intro s k total errs tr hInv _ htr
      simp only [failLoop]
      exact ⟨hInv, htr⟩
  | cons q rest ih =>
      intro s k total errs tr hInv hqs htr
      have hq : nameHasPrefix "fail_" q = true := hqs q (by simp)
      have hrest : ∀ x ∈ rest, nameHasPrefix "fail_" x = true := by
        intro x hx
        exact hqs x (by simp [hx])
      have hqFW : q ≠ FAIL_WORK_QUEUE := ne_of_prefix_true_false hq (by decide)
      have hqPW : q ≠ PENDING_WORK_QUEUE := ne_of_prefix_true_false hq (by decide)
      have hcap := upload_batch_continuing_cap cfg oracle s q FAIL_WORK_QUEUE k fuel
        hqFW hqPW hqFW (fail_prefixed_not_retr hq) (Or.inr rfl) hInv
      rcases hub : upload_batch_continuing cfg oracle s q FAIL_WORK_QUEUE k fuel
        with ⟨r, s1, k1, tr1⟩
      rw [hub] at hcap
      have htr1 : ∀ c ∈ tr ++ tr1, c.entries.length ≤ cfg.batch_size := by
        intro c hc
        rcases List.mem_append.mp hc with h | h
        · exact htr c h
        · exact hcap.2 c h
      cases r with
      | ok res =>
          cases hE : res.error with
          | some e =>
              have heq : failLoop cfg oracle fuel (q :: rest) s k total errs tr =
                  ⟨total + res.count, errs ++ [e], s1, k1, tr ++ tr1⟩ := by
                simp [failLoop, hub, hE]
              rw [heq]
              exact ⟨hcap.1, htr1⟩
          | none =>
              have heq : failLoop cfg oracle fuel (q :: rest) s k total errs tr =
                  failLoop cfg oracle fuel rest s1 k1 (total + res.count) errs
                    (tr ++ tr1) := by
                simp [failLoop, hub, hE]
              rw [heq]
              exact ih s1 k1 (total + res.count) errs (tr ++ tr1) hcap.1 hrest htr1
      | error m =>
          have heq : failLoop cfg oracle fuel (q :: rest) s k total errs tr =
              ⟨total, errs ++ [m], s1, k1, tr ++ tr1⟩ := by
            simp [failLoop, hub]
          rw [heq]
          exact ⟨hcap.1, htr1⟩

theorem upload_failing_cap (cfg : Config) (oracle : Nat → HttpEvent)
    (s : Store) (k fuel : Nat) (hInv : BatchCapInv cfg.batch_size s) :
    BatchCapInv cfg.batch_size (upload_failing cfg oracle s k fuel).store ∧
    ∀ c ∈ (upload_failing cfg oracle s k fuel).calls,
      c.entries.length ≤ cfg.batch_size := by
  exact failLoop_cap cfg oracle fuel (list_queues s "fail_") s k 0 [] [] hInv
    (fun q hq => list_queues_prefix hq) (by simp)

theorem enqueue_cap {B : Nat} {s : Store} (hInv : BatchCapInv B s) (e : Entry) :
    BatchCapInv B (enqueue s e) := by
  obtain ⟨h1, h2, h3⟩ := hInv
  refine ⟨?_, ?_, ?_⟩
  · rw [show enqueue s e = s.set PENDING_QUEUE (e :: s.get PENDING_QUEUE) from rfl,
      Store.get_set_ne _ _ (by decide)]
    exact h1
  · rw [show enqueue s e = s.set PENDING_QUEUE (e :: s.get PENDING_QUEUE) from rfl,
      Store.get_set_ne _ _ (by decide)]
    exact h2
  · intro x hx
    have hxp : PENDING_QUEUE ≠ x :=
      (ne_of_prefix_true_false hx (by decide)).symm
    rw [show enqueue s e = s.set PENDING_QUEUE (e :: s.get PENDING_QUEUE) from rfl,
      Store.get_set_ne _ _ hxp]
    exact h3 x hx

/-- The store states reachable from the empty store through producer
enqueues and the three drive operations, for a fixed configuration. -/
inductive Reachable (cfg : Config) : Store → Prop where
  | init : Reachable cfg Store.empty
  | enq (s : Store) (e : Entry) : Reachable cfg s →
      Reachable cfg (enqueue s e)
  | pending (s : Store) (oracle : Nat → HttpEvent) (now : String) (k fuel : Nat) :
      Reachable cfg s →
      Reachable cfg (upload_pending cfg oracle now s k fuel).store
  | retrying (s : Store) (oracle : Nat → HttpEvent) (today : String) (k : Nat) :
      Reachable cfg s →
      Reachable cfg (upload_retrying cfg oracle today s k).store
  | failing (s : Store) (oracle : Nat → HttpEvent) (k fuel : Nat) :
      Reachable cfg s →
      Reachable cfg (upload_failing cfg oracle s k fuel).store

theorem Reachable.batchCapInv {cfg : Config} {s : Store}
    (h : Reachable cfg s) : BatchCapInv cfg.batch_size s := by
  induction h with
  | init => exact BatchCapInv.empty _
  | enq s e _ ih => exact enqueue_cap ih e
  | pending s oracle now k fuel _ ih =>
      exact (upload_pending_cap cfg oracle now s k fuel ih).1
  | retrying s oracle today k _ ih =>
      exact (upload_retrying_cap cfg oracle today s k ih).1
  | failing s oracle k fuel _ ih =>
      exact (upload_failing_cap cfg oracle s k fuel ih).1

end BatchCapDrives

open CloudCache in
/-- C9: batch-cap invariant.  For every reachable store state, the work
queues and every `retr_`-prefixed queue (retry queues are created by
renaming `pend.work`) hold at most `batch_size` entries, and every HTTP POST
issued by any of the three drive operations carries at most `batch_size`
entries. -/
theorem C9_batch_cap (cfg : Config) (s : Store) (h : Reachable cfg s) :
    BatchCapInv cfg.batch_size s ∧
    (∀ (oracle : Nat → HttpEvent) (now : String) (k fuel : Nat),
      ∀ c ∈ (upload_pending cfg oracle now s k fuel).calls,
        c.entries.length ≤ cfg.batch_size) ∧
    (∀ (oracle : Nat → HttpEvent) (today : String) (k : Nat),
      ∀ c ∈ (upload_retrying cfg oracle today s k).calls,
        c.entries.length ≤ cfg.batch_size) ∧
    (∀ (oracle : Nat → HttpEvent) (k fuel : Nat),
      ∀ c ∈ (upload_failing cfg oracle s k fuel).calls,
        c.entries.length ≤ cfg.batch_size) := by
  have hInv := h.batchCapInv
  refine ⟨hInv, ?_, ?_, ?_⟩
  · intro oracle now k fuel
    exact (upload_pending_cap cfg oracle now s k fuel hInv).2
  · intro oracle today k
    exact (upload_retrying_cap cfg oracle today s k hInv).2
  · intro oracle k fuel
    exact (upload_failing_cap cfg oracle s k fuel hInv).2

open CloudCache in
/-- Witness for C9: from the reachable state holding one enqueued entry, the
single POST of `upload_pending` carries 1 ≤ 100 entries. -/
theorem C9_batch_cap_witness : (UploadCall.mk ["A"] 1).entries.length ≤ 100 := by
  have h := C9_batch_cap Config.defaults (enqueue Store.empty "A")
    (Reachable.enq Store.empty "A" Reachable.init)
  exact h.2.1 (fun _ => .response 200 "x") "t" 0 1 ⟨["A"], 1⟩ (by decide)
